import Mathlib

/-!
Verification of the container/sandbox version lifecycle manager of
`scitex-container` (files `apptainer/_versioning.py`,
`apptainer/_sandbox_versioning.py`, `apptainer/_status.py`,
`apptainer/_verify.py`, `apptainer/_build.py`).

The filesystem is modelled shallowly: a directory is a list of named
entries (regular file, directory, or symbolic link), each carrying a
modification time.  The order of the list stands for the arbitrary
enumeration order the OS reports to `glob` / `iterdir`; Python's stable
sort by `-mtime` is modelled by a stable insertion sort.  External
`ln`/`mv` subprocess invocations performed by the switch operations are
modelled by their net effect on the directory (they are assumed to
succeed; the spurious-subprocess-failure path is not the subject of any
claim).  Strings are Lean `String`s, manipulated through their `.data`
character lists, matching Python's character-sequence semantics.
-/

namespace SciTexContainer

/-- Re-pack the character list of a string. -/
theorem strEta (s : String) : String.mk s.data = s := by cases s; rfl

/-- Entry payload: regular file (with content), directory, or symlink
(with its literal target text, as returned by `readlink`). -/
inductive FsKind where
  | file (content : String)
  | dir
  | symlink (target : String)
  deriving DecidableEq

/-- One directory entry: a name, a kind, and a modification time
(`st_mtime`, the catalog's only sort key). -/
structure FsEntry where
  name : String
  fskind : FsKind
  mtime : Nat
  deriving DecidableEq

/-- A directory is its list of entries, in OS enumeration order. -/
abbrev Dir := List FsEntry

/-- Look a name up in a directory (first entry with that name). -/
def findEntry (d : Dir) (n : String) : Option FsEntry :=
  d.find? (fun e => e.name == n)

/-- Follow symlinks starting from name `n`, returning the kind of the
final target; `none` if the chain dangles or the fuel runs out (the
latter corresponds to an ELOOP failure, which `Path.exists` reports as
non-existence). -/
def resolveKind (d : Dir) (fuel : Nat) (n : String) : Option FsKind :=
  match findEntry d n with
  | none => none
  | some e =>
    match e.fskind with
    | .symlink t =>
      match fuel with
      | 0 => none
      | fuel' + 1 => resolveKind d fuel' t
    | k => some k

/-- Follow symlinks starting from name `n` and return the name of the
final path component, as `Path.resolve()` (strict=False) does: a
dangling link resolves to its target text. -/
def resolveName (d : Dir) (fuel : Nat) (n : String) : String :=
  match findEntry d n with
  | none => n
  | some e =>
    match e.fskind with
    | .symlink t =>
      match fuel with
      | 0 => t
      | fuel' + 1 => resolveName d fuel' t
    | _ => n

/-- Model of `Path.exists()` (follows symlinks). -/
def pexists (d : Dir) (n : String) : Bool :=
  (resolveKind d d.length n).isSome

/-- Model of `Path.is_file()` (follows symlinks). -/
def isFileB (d : Dir) (n : String) : Bool :=
  match resolveKind d d.length n with
  | some (.file _) => true
  | _ => false

/-- Model of `Path.is_dir()` (follows symlinks). -/
def isDirB (d : Dir) (n : String) : Bool :=
  match resolveKind d d.length n with
  | some .dir => true
  | _ => false

/-- Net effect of the `ln -sf` + `mv -Tf` pointer update: afterwards
the path `n` is a symlink-or-whatever `k`, every other path is
unchanged.  The entry is re-created at the front of the enumeration
with a fresh mtime; both are irrelevant to every operation modelled
here, because the pointer names (`current.sif`, `current-sandbox`)
never match the artifact naming patterns and so never enter a
catalog. -/
def setEntry (d : Dir) (n : String) (k : FsKind) : Dir :=
  ⟨n, k, 0⟩ :: d.filter (fun e => !(e.name == n))

/-- Remove every entry whose name occurs in `ns`. -/
def removeNames (d : Dir) (ns : List String) : Dir :=
  d.filter (fun e => !(ns.contains e.name))

/-- Python exception model: the two exception classes raised by the
versioning module. -/
inductive PyErr where
  | fileNotFound (msg : String)
  | runtimeError (msg : String)
  deriving DecidableEq

/-! ## Version-name parsing

`_VERSION_RE = ^scitex-v(.+)\.sif$` and
`_SANDBOX_RE = ^sandbox-(\d{8}_\d{6})$`.  A match of the first regex is
exactly a decomposition `name = "scitex-v" ++ mid ++ ".sif"` with `mid`
non-empty and newline-free (`.` does not match a newline); the
decomposition is unique, since the lengths of the fixed parts determine
`mid`, so the greedy capture group equals `mid`. -/

/-- Model of `_parse_version`: extract the version from a
`scitex-v*.sif` filename. -/
def parse_version (n : String) : Option String :=
  let mid : List Char := (n.data.drop 8).take (n.data.length - 12)
  if n.data = "scitex-v".data ++ mid ++ ".sif".data ∧ mid ≠ [] ∧ '\n' ∉ mid then
    some ⟨mid⟩
  else
    none

/-- Shape of the `\d{8}_\d{6}` timestamp (ASCII digits; the timestamps
the code writes are ASCII). -/
def timestampShape (t : List Char) : Bool :=
  t.length == 15 && (t.take 8).all Char.isDigit &&
    (t.drop 8).take 1 == ['_'] && ((t.drop 9).all Char.isDigit)

/-- Model of `_parse_sandbox_version`: extract the timestamp from a
`sandbox-YYYYMMDD_HHMMSS` directory name. -/
def parse_sandbox_version (n : String) : Option String :=
  let mid : List Char := n.data.drop 8
  if n.data = "sandbox-".data ++ mid ∧ timestampShape mid then
    some ⟨mid⟩
  else
    none

/-! ## Catalog listing -/

/-- Newest first: `b` is at most as recent as `a`. -/
def mtimeGE (a b : FsEntry) : Prop := b.mtime ≤ a.mtime

instance : DecidableRel mtimeGE := fun a b => Nat.decLe b.mtime a.mtime

instance : IsTotal FsEntry mtimeGE := ⟨fun a b => Nat.le_total b.mtime a.mtime⟩

instance : IsTrans FsEntry mtimeGE := ⟨fun _ _ _ h1 h2 => Nat.le_trans h2 h1⟩

/-- Python's stable `list.sort(key=-mtime)`. -/
def sortNewestFirst (l : List FsEntry) : List FsEntry :=
  l.insertionSort mtimeGE

/-- Model of `_versioned_sifs`: `scitex-v*.sif` regular files (the glob
pattern is implied by the regex check), newest first.  `pathlib.glob`
yields nothing for a missing directory, so the missing-directory case is
handled at the `Option Dir` level below. -/
def versioned_sifs (d : Dir) : List FsEntry :=
  sortNewestFirst
    (d.filter (fun e => (parse_version e.name).isSome && isFileB d e.name))

/-- Model of `_versioned_sandboxes`: `sandbox-*` directories matching
the timestamp pattern, newest first. -/
def versioned_sandboxes (d : Dir) : List FsEntry :=
  sortNewestFirst
    (d.filter (fun e => isDirB d e.name && (parse_sandbox_version e.name).isSome))

/-- Model of `get_active_version`: read the `current.sif` symlink,
resolve it fully, and parse the resolved name; `None` when the pointer
is absent or is not a symlink. -/
def get_active_version (d : Dir) : Option String :=
  match findEntry d "current.sif" with
  | some e =>
    match e.fskind with
    | .symlink t => parse_version (resolveName d d.length t)
    | _ => none
  | none => none

/-- Model of `get_active_sandbox`: read the `current-sandbox` symlink
via `readlink` (no chain resolution) and parse the target text. -/
def get_active_sandbox (d : Dir) : Option String :=
  match findEntry d "current-sandbox" with
  | some e =>
    match e.fskind with
    | .symlink t => parse_sandbox_version t
    | _ => none
  | none => none

/-! ## Switch / rollback -/

/-- Model of `switch_version`.  The `ln -sf tmp` + `mv -Tf tmp link`
sequence is modelled by its net effect (replace the `current.sif` entry
by a symlink to the target name); the external commands are assumed to
succeed, so the `RuntimeError` wrapper path for a failed subprocess is
not modelled.  On the missing-target path the directory is returned
unchanged: the exception is raised before anything touches the
filesystem. -/
def switch_version (version : String) (d : Dir) : Dir × Except PyErr Unit :=
  let target_name := "scitex-v" ++ version ++ ".sif"
  if pexists d target_name then
    (setEntry d "current.sif" (.symlink target_name), .ok ())
  else
    (d, .error (.fileNotFound ("Version " ++ version ++ " not found: " ++ target_name)))

/-- Model of `switch_sandbox`; the target must be a directory
(`target_path.is_dir()`). -/
def switch_sandbox (version : String) (d : Dir) : Dir × Except PyErr Unit :=
  let target_name := "sandbox-" ++ version
  if isDirB d target_name then
    (setEntry d "current-sandbox" (.symlink target_name), .ok ())
  else
    (d, .error (.fileNotFound ("Sandbox " ++ version ++ " not found: " ++ target_name)))

/-- Python `list.index`: the index of the first occurrence, `none`
standing for the `ValueError` branch. -/
def pyIndex (x : Option String) : List (Option String) → Option Nat
  | [] => none
  | y :: rest => if y == x then some 0 else (pyIndex x rest).map (· + 1)

/-- Model of `rollback`: locate the active version in the newest-first
catalog and switch to the next-older entry.  The inner wildcard branch
is dead code: every catalogued name parses (`versioned_sifs_parse_some`
below), and the index guard keeps `idx + 1` in range. -/
def rollback (d : Dir) : Dir × Except PyErr String :=
  match get_active_version d with
  | none => (d, .error (.runtimeError "No active version found; cannot rollback"))
  | some active =>
    let sifs := versioned_sifs d
    let versions := sifs.map (fun s => parse_version s.name)
    match pyIndex (some active) versions with
    | none =>
      (d, .error (.runtimeError ("Active version " ++ active ++ " not found in directory")))
    | some idx =>
      if idx + 1 ≥ versions.length then
        (d, .error (.runtimeError
          ("No older version available to roll back to (current: " ++ active ++ ")")))
      else
        match versions.get? (idx + 1) with
        | some (some previous) =>
          let s := switch_version previous d
          (s.1, s.2.map (fun _ => previous))
        | _ => (d, .error (.runtimeError "unreachable: catalogued names always parse"))

/-- Model of `rollback_sandbox` (same structure over sandboxes). -/
def rollback_sandbox (d : Dir) : Dir × Except PyErr String :=
  match get_active_sandbox d with
  | none => (d, .error (.runtimeError "No active sandbox found; cannot rollback"))
  | some active =>
    let sandboxes := versioned_sandboxes d
    let versions := sandboxes.map (fun s => parse_sandbox_version s.name)
    match pyIndex (some active) versions with
    | none =>
      (d, .error (.runtimeError ("Active sandbox " ++ active ++ " not found in directory")))
    | some idx =>
      if idx + 1 ≥ versions.length then
        (d, .error (.runtimeError
          ("No older sandbox to roll back to (current: " ++ active ++ ")")))
      else
        match versions.get? (idx + 1) with
        | some (some previous) =>
          let s := switch_sandbox previous d
          (s.1, s.2.map (fun _ => previous))
        | _ => (d, .error (.runtimeError "unreachable: catalogued names always parse"))

/-! ## Retention cleanup -/

/-- The shared retention loop: walk the newest-first catalog, skip
entries satisfying `skip` (unparsable names or the protected active
artifact), retain the first `keep` others, and collect the names of the
rest for removal. -/
def retainLoop (skip : FsEntry → Bool) (keep kept : Nat) : List FsEntry → List String
  | [] => []
  | e :: rest =>
    if skip e then retainLoop skip keep kept rest
    else if kept < keep then retainLoop skip keep (kept + 1) rest
    else e.name :: retainLoop skip keep kept rest

/-- Skip condition of `cleanup`: `version is None` (dead in the catalog)
or membership of the name in the protected set
`scitex-v{active}.sif`. -/
def sifSkip (active : Option String) (e : FsEntry) : Bool :=
  match parse_version e.name with
  | none => true
  | some _ =>
    match active with
    | some a => e.name == "scitex-v" ++ a ++ ".sif"
    | none => false

/-- Skip condition of `cleanup_sandboxes`: unparsable name or
`version == active`. -/
def sandboxSkip (active : Option String) (e : FsEntry) : Bool :=
  match parse_sandbox_version e.name with
  | none => true
  | some v => active == some v

/-- Model of `cleanup`: remove old versioned SIFs, keeping the `keep`
most recent and never the active one.  Returns the new directory and
the removed names. -/
def cleanup (d : Dir) (keep : Nat) : Dir × List String :=
  let active := get_active_version d
  let removed := retainLoop (sifSkip active) keep 0 (versioned_sifs d)
  (removeNames d removed, removed)

/-- Model of `cleanup_sandboxes`. -/
def cleanup_sandboxes (d : Dir) (keep : Nat) : Dir × List String :=
  let active := get_active_sandbox d
  let removed := retainLoop (sandboxSkip active) keep 0 (versioned_sandboxes d)
  (removeNames d removed, removed)

/-- Glob `*.sif.old` (pathlib's glob matches hidden files too, and `*`
may match the empty string). -/
def globSifOld (n : String) : Bool :=
  ".sif.old".data.reverse.isPrefixOf n.data.reverse

/-- Glob `*.sif.backup.*`. -/
def globSifBackup (n : String) : Bool :=
  n.data.tails.any (fun t => ".sif.backup.".data.isPrefixOf t)

/-- Glob `*.sif`. -/
def globAnySif (n : String) : Bool :=
  ".sif".data.reverse.isPrefixOf n.data.reverse

/-- Model of `cleanup_sifs` (the purge variant): remove `*.sif.old`
files, then `*.sif.backup.*` files, then every versioned SIF past the
first `keep` in the newest-first catalog (no active-protection), then
non-versioned stray `*.sif` regular files, and finally the
`current.sif` symlink when it is present.  Each phase re-reads the
directory left by the previous one, as each `glob` call does. -/
def cleanup_sifs (d0 : Dir) (keep : Nat) : Dir × List String :=
  let olds := (d0.filter (fun e => globSifOld e.name && isFileB d0 e.name)).map FsEntry.name
  let d1 := removeNames d0 olds
  let backups := (d1.filter (fun e => globSifBackup e.name && isFileB d1 e.name)).map FsEntry.name
  let d2 := removeNames d1 backups
  let dropped := ((versioned_sifs d2).drop keep).map FsEntry.name
  let d3 := removeNames d2 dropped
  let strays := (d3.filter (fun e =>
    globAnySif e.name && isFileB d3 e.name && (parse_version e.name).isNone)).map FsEntry.name
  let d4 := removeNames d3 strays
  match findEntry d4 "current.sif" with
  | some e =>
    match e.fskind with
    | .symlink _ =>
      (removeNames d4 ["current.sif"], olds ++ backups ++ dropped ++ strays ++ ["current.sif"])
    | _ => (d4, olds ++ backups ++ dropped ++ strays)
  | none => (d4, olds ++ backups ++ dropped ++ strays)

/-! ## Listing over a possibly missing directory

`Option Dir` distinguishes a missing containers directory (`none`) from
an existing one.  `pathlib.Path.glob` yields nothing for a missing
directory (verified on CPython 3.11), while `Path.iterdir` raises
`FileNotFoundError`. -/

/-- One row of the `list_versions` result.  The `size` and `date`
display strings are floating-point / locale formatting and are
presentation only; they are not modelled. -/
structure VersionInfo where
  version : String
  name : String
  active : Bool
  deriving DecidableEq

/-- Model of `_versioned_sifs` at the filesystem level: a missing
directory yields an empty catalog (glob swallows it). -/
def versioned_sifs_fs : Option Dir → List FsEntry
  | none => []
  | some d => versioned_sifs d

/-- Model of `_versioned_sandboxes` at the filesystem level: `iterdir`
raises `FileNotFoundError` on a missing directory. -/
def versioned_sandboxes_fs : Option Dir → Except PyErr (List FsEntry)
  | none => .error (.fileNotFound "No such file or directory")
  | some d => .ok (versioned_sandboxes d)

/-- Model of `get_active_version` over a possibly missing directory
(`is_symlink` on a path inside a missing directory is `False`). -/
def get_active_version_fs : Option Dir → Option String
  | none => none
  | some d => get_active_version d

/-- Model of `list_versions`: metadata rows for the catalog, newest
first; never raises. -/
def list_versions_fs (od : Option Dir) : List VersionInfo :=
  let active := get_active_version_fs od
  (versioned_sifs_fs od).filterMap (fun e =>
    match parse_version e.name with
    | none => none
    | some v => some ⟨v, e.name, active == some v⟩)

/-- Model of `list_sandboxes`: raises `FileNotFoundError` when the
directory is missing (via `_versioned_sandboxes`). -/
def list_sandboxes_fs (od : Option Dir) : Except PyErr (List VersionInfo) :=
  match od with
  | none => .error (.fileNotFound "No such file or directory")
  | some d =>
    let active := get_active_sandbox d
    .ok ((versioned_sandboxes d).filterMap (fun e =>
      match parse_sandbox_version e.name with
      | none => none
      | some v => some ⟨v, e.name, active == some v⟩))

/-! ## Staleness (HashStore)

The SHA-256 digest itself is kept abstract: the staleness and
verification logic only compares digest strings, so the models take the
digest function as a parameter.  SHA-256 hex digests are 64 characters,
in particular non-empty; theorems that need this carry it as a
hypothesis on the parameter. -/

/-- Python `str.strip()` on the whitespace characters Lean knows
(space, tab, newline, carriage return). -/
def pyStrip (s : String) : String :=
  ⟨((s.data.dropWhile Char.isWhitespace).reverse.dropWhile Char.isWhitespace).reverse⟩

/-- The stored sidecar digest as `status` reads it: `read_text().strip()`
when the `.def-hash` file exists, `""` otherwise. -/
def storedHash (hashFile : Option String) : String :=
  match hashFile with
  | some c => pyStrip c
  | none => ""

/-- Model of the `needs_rebuild` flag computed by `status` for one
definition file: it starts `True`, and only when the SIF exists is it
replaced by `current_hash != stored_hash`.  `sifContent` is carried to
state (and make falsifiable) that the flag never depends on the
artifact's content; the source reads only `sif_path.stat()` for display
fields. -/
def needs_rebuild (hash : String → String) (defContent : String)
    (hashFile : Option String) (sifPresent : Bool) (sifContent : String) : Bool :=
  let _ := sifContent
  let current := hash defContent
  let stored := storedHash hashFile
  if sifPresent then current != stored else true

/-- Model of the up-to-date short-circuit in `build`: the build is
skipped iff `not force and output_path.exists() and hash_file.exists()`
and the current definition hash equals the stored one. -/
def build_skips_rebuild (hash : String → String) (force : Bool)
    (outputPresent : Bool) (hashFile : Option String) (defContent : String) : Bool :=
  !force && outputPresent && hashFile.isSome &&
    hash defContent == storedHash hashFile

/-! ## Verification (`verify`) -/

/-- Status of one verification check. -/
inductive CheckStatus where
  | pass
  | fail
  | skip
  deriving DecidableEq

/-- Outcome of one external `subprocess.run` invocation inside
`_verify_pip_lock` / `_verify_dpkg_lock`. -/
inductive RunOutcome where
  | completed (returncode : Int) (stdout : String) (stderr : String)
  | timedOut
  | raised (msg : String)
  deriving DecidableEq

/-- The `sif` section of the report.  The source stores the existence
check as the boolean `exists` key (field `present` here; `exists` is a
Lean keyword): it is always reported as a boolean, never as a
skippable status. -/
structure SifResult where
  path : String
  sha256 : Option String
  present : Bool
  deriving DecidableEq

/-- The `def_origin` section of the report. -/
structure DefOriginResult where
  status : CheckStatus
  detail : String
  deriving DecidableEq

/-- A `pip_lock` / `dpkg_lock` section.  `diff_count` is absent from
the initial skip dict, hence optional; `added` / `removed` are only
present in the pip mismatch branch. -/
structure LockResult where
  status : CheckStatus
  detail : String
  diff_count : Option Int
  added : List String
  removed : List String
  deriving DecidableEq

/-- The full report returned by `verify`. -/
structure VerifyReport where
  sif : SifResult
  def_origin : DefOriginResult
  pip_lock : LockResult
  dpkg_lock : LockResult
  overall : CheckStatus
  deriving DecidableEq

/-- Everything `verify` reads from the world: file presence and
contents, the detected container command, and the captured output of
the two package-listing subprocesses. -/
structure VerifyInput where
  sifPath : String
  sifPresent : Bool
  sifContent : String
  defProvided : Bool
  defPath : String
  defPresent : Bool
  defContent : String
  hashFile : Option String
  containerCmd : Option String
  pipLock : Option String
  dpkgLock : Option String
  pipRun : RunOutcome
  dpkgRun : RunOutcome

/-- Python `str(text).strip().splitlines()` restricted to `\n` line
endings: the empty stripped text yields no lines. -/
def pyLines (s : String) : List String :=
  let t := (pyStrip s).data
  if t = [] then [] else (t.splitOn '\n').map (fun l => ⟨l⟩)

/-- Distinct lines of `s` (Python builds a `set` of the lines). -/
def lineSet (s : String) : List String :=
  (pyLines s).dedup

/-- Python string sort order (lexicographic by code point). -/
def strLE (a b : String) : Bool := decide (¬ b < a)

/-- Shared body of `_verify_pip_lock` and `_verify_dpkg_lock`: compare
the captured package listing against the stored lock file.  The two
callers differ only in the human-readable wording and in whether the
truncated `added` / `removed` samples are attached. -/
def verifyLockRun (failWord : String) (addedWord : String) (removedWord : String)
    (attachLists : Bool) (run : RunOutcome) (lockContent : String) : LockResult :=
  match run with
  | .timedOut => ⟨.fail, failWord ++ " timed out", some (-1), [], []⟩
  | .raised msg => ⟨.fail, msg, some (-1), [], []⟩
  | .completed rc out err =>
    if rc != 0 then
      ⟨.fail, failWord ++ " failed: " ++ ⟨err.data.take 200⟩, some (-1), [], []⟩
    else
      let current := lineSet out
      let stored := lineSet lockContent
      let added := current.filter (fun l => !(stored.contains l))
      let removed := stored.filter (fun l => !(current.contains l))
      let diff : Int := (added.length : Int) + (removed.length : Int)
      if diff = 0 then
        ⟨.pass, "All " ++ toString current.length ++ " packages match", some 0, [], []⟩
      else
        let parts := (if added.length > 0 then ["+" ++ toString added.length ++ addedWord] else [])
          ++ (if removed.length > 0 then ["-" ++ toString removed.length ++ removedWord] else [])
        ⟨.fail, "Package mismatch: " ++ String.intercalate ", " parts, some diff,
          if attachLists then ((added.mergeSort strLE).take 10) else [],
          if attachLists then ((removed.mergeSort strLE).take 10) else []⟩

/-- Model of `_verify_pip_lock`. -/
def verify_pip_lock (run : RunOutcome) (lockContent : String) : LockResult :=
  verifyLockRun "pip freeze" " new" " missing" true run lockContent

/-- Model of `_verify_dpkg_lock`. -/
def verify_dpkg_lock (run : RunOutcome) (lockContent : String) : LockResult :=
  verifyLockRun "dpkg-query" " changed/new" " missing/changed" false run lockContent

/-- The imperative `result["overall"] = "fail"` update guarded by a
check status: once failed, always failed. -/
def foldOverall (o : CheckStatus) (s : CheckStatus) : CheckStatus :=
  if s = .fail then .fail else o

/-- Model of the `def_origin` section computation (check 2). -/
def defOriginCheck (hash : String → String) (inp : VerifyInput) : DefOriginResult :=
  if inp.defProvided then
    if !inp.defPresent then
      ⟨.fail, ".def not found: " ++ inp.defPath⟩
    else
      match inp.hashFile with
      | none => ⟨.fail, "No stored .def-hash found"⟩
      | some stored =>
        let current := hash inp.defContent
        if current = pyStrip stored then
          ⟨.pass, "def hash matches: " ++ ⟨current.data.take 16⟩ ++ "..."⟩
        else
          ⟨.fail, "def hash mismatch: current=" ++ ⟨current.data.take 16⟩
            ++ "... stored=" ++ ⟨(pyStrip stored).data.take 16⟩ ++ "..."⟩
  else
    ⟨.skip, "No .def provided"⟩

/-- The `pip_lock` section when a container command is available:
checked when the lock file exists, otherwise left as the initial skip
entry. -/
def pipSection (inp : VerifyInput) : LockResult :=
  match inp.pipLock with
  | some lockContent => verify_pip_lock inp.pipRun lockContent
  | none => ⟨.skip, "No lock file found", none, [], []⟩

/-- The `dpkg_lock` section when a container command is available. -/
def dpkgSection (inp : VerifyInput) : LockResult :=
  match inp.dpkgLock with
  | some lockContent => verify_dpkg_lock inp.dpkgRun lockContent
  | none => ⟨.skip, "No lock file found", none, [], []⟩

/-- Model of `verify`.  The sequential `overall` mutations of the
source are folded with `foldOverall` in the same order: existence
(early return), then `def_origin`, then `pip_lock`, then
`dpkg_lock`. -/
def verify (hash : String → String) (inp : VerifyInput) : VerifyReport :=
  let skipLock : LockResult := ⟨.skip, "No lock file found", none, [], []⟩
  if !inp.sifPresent then
    ⟨⟨inp.sifPath, none, false⟩, ⟨.skip, "No .def provided"⟩, skipLock, skipLock, .fail⟩
  else
    let sifRes : SifResult := ⟨inp.sifPath, some (hash inp.sifContent), true⟩
    let defRes := defOriginCheck hash inp
    let o1 := foldOverall .pass defRes.status
    let noCmdLock : LockResult := ⟨.skip, "No container command found", none, [], []⟩
    match inp.containerCmd with
    | none => ⟨sifRes, defRes, noCmdLock, noCmdLock, o1⟩
    | some _ =>
      let pipRes := pipSection inp
      let o2 := foldOverall o1 pipRes.status
      let dpkgRes := dpkgSection inp
      let o3 := foldOverall o2 dpkgRes.status
      ⟨sifRes, defRes, pipRes, dpkgRes, o3⟩

/-! ## Basic lemmas about the string model -/

theorem data_injective {s t : String} (h : s.data = t.data) : s = t := by
  cases s; cases t; exact congrArg String.mk h

/-- Reconstruction: a successful `_parse_version` match decomposes the
name as `scitex-v{w}.sif` with `w` non-empty and newline-free. -/
theorem parse_version_eq_some {n w : String} (h : parse_version n = some w) :
    n.data = "scitex-v".data ++ w.data ++ ".sif".data ∧ w.data ≠ [] ∧ '\n' ∉ w.data := by
  simp only [parse_version] at h
  split at h
  · rename_i hc
    cases h
    exact hc
  · exact absurd h (by simp)

/-- Round trip: formatting a pattern-conforming version and parsing it
back returns the version. -/
theorem parse_version_format (w : String) (h1 : w.data ≠ []) (h2 : '\n' ∉ w.data) :
    parse_version ("scitex-v" ++ w ++ ".sif") = some w := by
  have hA : ("scitex-v".data).length = 8 := by decide
  have hB : (".sif".data).length = 4 := by decide
  have hdata : ("scitex-v" ++ w ++ ".sif").data
      = "scitex-v".data ++ (w.data ++ ".sif".data) := by
    rw [String.data_append, String.data_append, List.append_assoc]
  have hdrop : ("scitex-v" ++ w ++ ".sif").data.drop 8 = w.data ++ ".sif".data := by
    rw [hdata, ← hA, List.drop_left]
  have hlen : ("scitex-v" ++ w ++ ".sif").data.length - 12 = w.data.length := by
    rw [hdata]
    simp only [List.length_append, hA, hB]
    omega
  have hmid : (("scitex-v" ++ w ++ ".sif").data.drop 8).take
      (("scitex-v" ++ w ++ ".sif").data.length - 12) = w.data := by
    rw [hdrop, hlen, List.take_left]
  simp only [parse_version, hmid]
  rw [if_pos ⟨by rw [hdata, List.append_assoc], h1, h2⟩, strEta]

/-- Reconstruction for sandbox names. -/
theorem parse_sandbox_version_eq_some {n w : String}
    (h : parse_sandbox_version n = some w) :
    n.data = "sandbox-".data ++ w.data ∧ timestampShape w.data = true := by
  simp only [parse_sandbox_version] at h
  split at h
  · rename_i hc
    cases h
    exact ⟨hc.1, hc.2⟩
  · exact absurd h (by simp)

/-- Round trip for sandbox timestamps. -/
theorem parse_sandbox_version_format (w : String) (h : timestampShape w.data = true) :
    parse_sandbox_version ("sandbox-" ++ w) = some w := by
  have hA : ("sandbox-".data).length = 8 := by decide
  have hdata : ("sandbox-" ++ w).data = "sandbox-".data ++ w.data :=
    String.data_append ..
  have hmid : ("sandbox-" ++ w).data.drop 8 = w.data := by
    rw [hdata, ← hA, List.drop_left]
  simp only [parse_sandbox_version, hmid]
  rw [if_pos ⟨hdata, h⟩, strEta]

/-- Two names carrying the same image version are equal. -/
theorem parse_version_name_eq {n₁ n₂ w : String}
    (h₁ : parse_version n₁ = some w) (h₂ : parse_version n₂ = some w) : n₁ = n₂ := by
  exact data_injective ((parse_version_eq_some h₁).1.trans
    (parse_version_eq_some h₂).1.symm)

theorem parse_version_current : parse_version "current.sif" = none := by decide

/-! ## Catalog lemmas -/

theorem versioned_sifs_perm (d : Dir) :
    (versioned_sifs d).Perm
      (d.filter (fun e => (parse_version e.name).isSome && isFileB d e.name)) :=
  List.perm_insertionSort mtimeGE _

theorem mem_versioned_sifs {d : Dir} {e : FsEntry} :
    e ∈ versioned_sifs d ↔
      e ∈ d ∧ (parse_version e.name).isSome ∧ isFileB d e.name := by
  rw [(versioned_sifs_perm d).mem_iff, List.mem_filter]
  simp [Bool.and_eq_true]

theorem versioned_sifs_sorted (d : Dir) :
    List.Sorted mtimeGE (versioned_sifs d) :=
  List.sorted_insertionSort mtimeGE _

theorem versioned_sandboxes_perm (d : Dir) :
    (versioned_sandboxes d).Perm
      (d.filter (fun e => isDirB d e.name && (parse_sandbox_version e.name).isSome)) :=
  List.perm_insertionSort mtimeGE _

theorem mem_versioned_sandboxes {d : Dir} {e : FsEntry} :
    e ∈ versioned_sandboxes d ↔
      e ∈ d ∧ isDirB d e.name ∧ (parse_sandbox_version e.name).isSome := by
  rw [(versioned_sandboxes_perm d).mem_iff, List.mem_filter]
  simp [Bool.and_eq_true]

theorem versioned_sandboxes_sorted (d : Dir) :
    List.Sorted mtimeGE (versioned_sandboxes d) :=
  List.sorted_insertionSort mtimeGE _

/-! ## Directory-update lemmas -/

/-- Filtering with a predicate that keeps every entry named `m` does
not change the lookup of `m`. -/
theorem findEntry_filter_keep {p : FsEntry → Bool} {d : Dir} {m : String}
    (h : ∀ e : FsEntry, e.name = m → p e = true) :
    findEntry (d.filter p) m = findEntry d m := by
  induction d with
  | nil => rfl
  | cons e d ih =>
    by_cases he : e.name = m
    · have hp := h e he
      have hb : (e.name == m) = true := beq_iff_eq.mpr he
      simp [findEntry, List.filter, hp, List.find?, hb] at ih ⊢
    · have hb : (e.name == m) = false := beq_eq_false_iff_ne.mpr he
      rcases hp : p e with _ | _
      · simpa [findEntry, List.filter, hp, List.find?, hb] using ih
      · simpa [findEntry, List.filter, hp, List.find?, hb] using ih

/-- Filtering with a predicate that drops every entry named `m` makes
the lookup of `m` fail. -/
theorem findEntry_filter_drop {p : FsEntry → Bool} {d : Dir} {m : String}
    (h : ∀ e : FsEntry, e.name = m → p e = false) :
    findEntry (d.filter p) m = none := by
  rw [findEntry, List.find?_eq_none]
  intro e he
  rcases List.mem_filter.mp he with ⟨_, hpe⟩
  intro hb
  rw [h e (beq_iff_eq.mp hb)] at hpe
  exact Bool.false_ne_true hpe

theorem findEntry_setEntry_self (d : Dir) (n : String) (k : FsKind) :
    findEntry (setEntry d n k) n = some ⟨n, k, 0⟩ := by
  simp [setEntry, findEntry, List.find?]

theorem findEntry_setEntry_ne (d : Dir) (n : String) (k : FsKind) {m : String}
    (hne : m ≠ n) :
    findEntry (setEntry d n k) m = findEntry d m := by
  have hb : (n == m) = false := beq_eq_false_iff_ne.mpr (fun h => hne h.symm)
  rw [setEntry, findEntry, List.find?]
  simp only [hb]
  exact findEntry_filter_keep (fun e he => by
    simp [he, beq_eq_false_iff_ne.mpr (fun h : m = n => hne h)])

theorem findEntry_removeNames_not_mem {d : Dir} {ns : List String} {m : String}
    (h : m ∉ ns) :
    findEntry (removeNames d ns) m = findEntry d m := by
  refine findEntry_filter_keep (fun e he => ?_)
  subst he
  simp [List.contains, List.elem_iff, h]

theorem findEntry_removeNames_mem {d : Dir} {ns : List String} {m : String}
    (h : m ∈ ns) :
    findEntry (removeNames d ns) m = none := by
  refine findEntry_filter_drop (fun e he => ?_)
  subst he
  simp [List.contains, List.elem_iff, h]
/-! ## Helper lemmas for the operations -/

theorem pyIndex_get? {x : Option String} {l : List (Option String)} {i : Nat}
    (h : pyIndex x l = some i) : l.get? i = some x := by
  induction l generalizing i with
  | nil => simp [pyIndex] at h
  | cons y rest ih =>
    rw [pyIndex] at h
    by_cases hy : y = x
    · rw [if_pos (beq_iff_eq.mpr hy)] at h
      cases h
      simpa using hy
    · rw [if_neg (by simp [hy])] at h
      rcases hj : pyIndex x rest with _ | j
      · rw [hj] at h; simp at h
      · rw [hj] at h
        simp only [Option.map_some'] at h
        cases h
        simpa using ih hj

theorem pexists_of_isFileB {d : Dir} {n : String} (h : isFileB d n = true) :
    pexists d n = true := by
  unfold isFileB at h
  unfold pexists
  rcases hr : resolveKind d d.length n with _ | k
  · rw [hr] at h; simp at h
  · simp

theorem pexists_of_isDirB {d : Dir} {n : String} (h : isDirB d n = true) :
    pexists d n = true := by
  unfold isDirB at h
  unfold pexists
  rcases hr : resolveKind d d.length n with _ | k
  · rw [hr] at h; simp at h
  · simp

theorem mem_retainLoop {skip : FsEntry → Bool} {keep kept : Nat} {l : List FsEntry}
    {n : String} (h : n ∈ retainLoop skip keep kept l) :
    ∃ e, e ∈ l ∧ e.name = n ∧ skip e = false := by
  induction l generalizing kept with
  | nil => simp [retainLoop] at h
  | cons e rest ih =>
    rw [retainLoop] at h
    rcases hs : skip e with _ | _
    · rw [hs] at h
      simp only [Bool.false_eq_true, if_neg (by exact fun hc => hc)] at h
      by_cases hk : kept < keep
      · rw [if_pos hk] at h
        obtain ⟨e', he', hn', hs'⟩ := ih h
        exact ⟨e', List.mem_cons_of_mem _ he', hn', hs'⟩
      · rw [if_neg hk] at h
        rcases List.mem_cons.mp h with h1 | h2
        · exact ⟨e, List.mem_cons_self _ _, h1.symm, hs⟩
        · obtain ⟨e', he', hn', hs'⟩ := ih h2
          exact ⟨e', List.mem_cons_of_mem _ he', hn', hs'⟩
    · rw [hs] at h
      simp only [if_pos rfl] at h
      obtain ⟨e', he', hn', hs'⟩ := ih h
      exact ⟨e', List.mem_cons_of_mem _ he', hn', hs'⟩

theorem retainLoop_length (skip : FsEntry → Bool) (keep kept : Nat) (l : List FsEntry) :
    (retainLoop skip keep kept l).length
        + min (keep - kept) ((l.filter (fun e => !skip e)).length)
      = (l.filter (fun e => !skip e)).length := by
  induction l generalizing kept with
  | nil => simp [retainLoop]
  | cons e rest ih =>
    rw [retainLoop]
    rcases hs : skip e with _ | _
    · have hf : (e :: rest).filter (fun e => !skip e)
          = e :: rest.filter (fun e => !skip e) := by
        simp [List.filter_cons, hs]
      rw [hf]
      simp only [Bool.false_eq_true, if_neg (by exact fun hc => hc)]
      by_cases hk : kept < keep
      · rw [if_pos hk]
        have h := ih (kept + 1)
        simp only [List.length_cons]
        omega
      · rw [if_neg hk]
        have h := ih kept
        simp only [List.length_cons]
        omega
    · have hf : (e :: rest).filter (fun e => !skip e)
          = rest.filter (fun e => !skip e) := by
        simp [List.filter_cons, hs]
      rw [hf]
      simp only [if_pos rfl]
      exact ih kept

/-- Whether an artifact entry carries exactly the active version (the
protection predicate of the retention claims). -/
def isActiveSif (act : Option String) (e : FsEntry) : Bool :=
  match act with
  | some a => parse_version e.name == some a
  | none => false

/-- Sandbox analogue of `isActiveSif`. -/
def isActiveSandbox (act : Option String) (e : FsEntry) : Bool :=
  match act with
  | some a => parse_sandbox_version e.name == some a
  | none => false

/-- On names that parse, the name-based protection check of `cleanup`
agrees with the version-based one. -/
theorem sifSkip_eq_isActive {act : Option String} {e : FsEntry}
    (h : (parse_version e.name).isSome = true) :
    sifSkip act e = isActiveSif act e := by
  rcases hp : parse_version e.name with _ | w
  · rw [hp] at h; simp at h
  · unfold sifSkip isActiveSif
    rw [hp]
    rcases act with _ | a
    · rfl
    · by_cases hwa : w = a
      · subst hwa
        have hn : e.name = "scitex-v" ++ w ++ ".sif" := by
          apply data_injective
          rw [(parse_version_eq_some hp).1, String.data_append, String.data_append]

        simp [hn]
      · have h1 : (e.name == "scitex-v" ++ a ++ ".sif") = false := by
          apply beq_eq_false_iff_ne.mpr
          intro he
          rw [he] at hp
          have hr := (parse_version_eq_some hp).1
          have ha : ("scitex-v" ++ a ++ ".sif").data
              = "scitex-v".data ++ a.data ++ ".sif".data := by
            rw [String.data_append, String.data_append]
          rw [ha] at hr
          rw [List.append_assoc, List.append_assoc] at hr
          have h2 := List.append_cancel_left hr
          have h3 := List.append_cancel_right h2
          exact hwa (data_injective h3).symm
        have h2 : (some w == some a) = false := by
          simp [hwa]
        show (e.name == "scitex-v" ++ a ++ ".sif") = (some w == some a)
        rw [h1, h2]

theorem sandboxSkip_eq_isActive {act : Option String} {e : FsEntry}
    (h : (parse_sandbox_version e.name).isSome = true) :
    sandboxSkip act e = isActiveSandbox act e := by
  rcases hp : parse_sandbox_version e.name with _ | w
  · rw [hp] at h; simp at h
  · unfold sandboxSkip isActiveSandbox
    rw [hp]
    rcases act with _ | a
    · rfl
    · by_cases hwa : w = a
      · subst hwa; simp
      · have h1 : (some a == some w) = false := by simp [Ne.symm hwa]
        have h2 : (some w == some a) = false := by simp [hwa]
        show (some a == some w) = (some w == some a)
        rw [h1, h2]

/-- The active-artifact protection of `cleanup`, shared by the
retention claims: a removed name never carries the active version. -/
theorem cleanup_not_active (d : Dir) (keep : Nat) :
    ∀ n ∈ (cleanup d keep).2, ∀ a, get_active_version d = some a →
      parse_version n ≠ some a := by
  intro n hn a ha hpn
  have hn' : n ∈ retainLoop (sifSkip (get_active_version d)) keep 0 (versioned_sifs d) := hn
  obtain ⟨e, he, hname, hskip⟩ := mem_retainLoop hn'
  rw [← hname] at hpn
  rw [ha] at hskip
  unfold sifSkip at hskip
  rw [hpn] at hskip
  have hne : e.name = "scitex-v" ++ a ++ ".sif" := by
    apply data_injective
    rw [(parse_version_eq_some hpn).1, String.data_append, String.data_append]
  rw [hne] at hskip
  simp at hskip

/-- Sandbox analogue of `cleanup_not_active`. -/
theorem cleanup_sandboxes_not_active (d : Dir) (keep : Nat) :
    ∀ n ∈ (cleanup_sandboxes d keep).2, ∀ a, get_active_sandbox d = some a →
      parse_sandbox_version n ≠ some a := by
  intro n hn a ha hpn
  have hn' : n ∈ retainLoop (sandboxSkip (get_active_sandbox d)) keep 0
      (versioned_sandboxes d) := hn
  obtain ⟨e, he, hname, hskip⟩ := mem_retainLoop hn'
  rw [← hname] at hpn
  rw [ha] at hskip
  unfold sandboxSkip at hskip
  rw [hpn] at hskip
  simp at hskip

/-- Names removed by `cleanup` all parse (they come from the catalog). -/
theorem cleanup_removed_parses {d : Dir} {keep : Nat} {n : String}
    (hn : n ∈ (cleanup d keep).2) : (parse_version n).isSome = true := by
  have hn' : n ∈ retainLoop (sifSkip (get_active_version d)) keep 0 (versioned_sifs d) := hn
  obtain ⟨e, he, hname, _⟩ := mem_retainLoop hn'
  rw [← hname]
  exact (mem_versioned_sifs.mp he).2.1

/-! ## Claim theorems -/

/-- C7: for all pattern-conforming version strings (non-empty and
newline-free for images; `\d{8}_\d{6}` timestamps for sandboxes),
parsing the formatted artifact name returns the version; and every name
the parser rejects is excluded from the catalog listing of either
kind. -/
theorem spec_c7 :
    (∀ v : String, v.data ≠ [] → '\n' ∉ v.data →
      parse_version ("scitex-v" ++ v ++ ".sif") = some v) ∧
    (∀ v : String, timestampShape v.data = true →
      parse_sandbox_version ("sandbox-" ++ v) = some v) ∧
    (∀ (n : String) (d : Dir), parse_version n = none →
      n ∉ (versioned_sifs d).map FsEntry.name) ∧
    (∀ (n : String) (d : Dir), parse_sandbox_version n = none →
      n ∉ (versioned_sandboxes d).map FsEntry.name) := by
  refine ⟨parse_version_format, parse_sandbox_version_format, ?_, ?_⟩
  · intro n d hp hmem
    obtain ⟨e, he, hname⟩ := List.mem_map.mp hmem
    have hs := (mem_versioned_sifs.mp he).2.1
    rw [hname, hp] at hs
    simp at hs
  · intro n d hp hmem
    obtain ⟨e, he, hname⟩ := List.mem_map.mp hmem
    have hs := (mem_versioned_sandboxes.mp he).2.2
    rw [hname, hp] at hs
    simp at hs

/-- Witness for C7 at concrete inputs. -/
theorem spec_c7_witness :
    parse_version ("scitex-v" ++ "2.19.5" ++ ".sif") = some "2.19.5" ∧
    parse_sandbox_version ("sandbox-" ++ "20260225_173700") = some "20260225_173700" ∧
    "stray.sif" ∉ (versioned_sifs [⟨"stray.sif", .file "x", 1⟩]).map FsEntry.name ∧
    "note.txt" ∉ (versioned_sandboxes [⟨"note.txt", .file "x", 1⟩]).map FsEntry.name := by
  exact ⟨spec_c7.1 "2.19.5" (by decide) (by decide),
    spec_c7.2.1 "20260225_173700" (by decide),
    spec_c7.2.2.1 "stray.sif" _ (by decide),
    spec_c7.2.2.2 "note.txt" _ (by decide)⟩

/-- C10: if the active-pointer path exists but is not a symlink, the
active-version lookup returns `none` (for both kinds), exactly as when
the pointer is absent; and a version is reported only when the pointer
is a symlink whose (resolved, for images; literal, for sandboxes)
target name parses under the kind's pattern. -/
theorem spec_c10 (d : Dir) :
    (∀ e, findEntry d "current.sif" = some e →
      (∀ t, e.fskind ≠ FsKind.symlink t) → get_active_version d = none) ∧
    (findEntry d "current.sif" = none → get_active_version d = none) ∧
    (∀ v, get_active_version d = some v →
      ∃ e t, findEntry d "current.sif" = some e ∧ e.fskind = FsKind.symlink t ∧
        parse_version (resolveName d d.length t) = some v) ∧
    (∀ e, findEntry d "current-sandbox" = some e →
      (∀ t, e.fskind ≠ FsKind.symlink t) → get_active_sandbox d = none) ∧
    (findEntry d "current-sandbox" = none → get_active_sandbox d = none) ∧
    (∀ v, get_active_sandbox d = some v →
      ∃ e t, findEntry d "current-sandbox" = some e ∧ e.fskind = FsKind.symlink t ∧
        parse_sandbox_version t = some v) := by
  refine ⟨?_, ?_, ?_, ?_, ?_, ?_⟩
  · intro e he hnt
    rcases hk : e.fskind with c | _ | t
    · simp [get_active_version, he, hk]
    · simp [get_active_version, he, hk]
    · exact absurd hk (hnt t)
  · intro h
    simp [get_active_version, h]
  · intro v hv
    unfold get_active_version at hv
    rcases hfe : findEntry d "current.sif" with _ | e
    · rw [hfe] at hv; simp at hv
    · rw [hfe] at hv
      rcases hk : e.fskind with c | _ | t
      · simp [hk] at hv
      · simp [hk] at hv
      · simp only [hk] at hv
        exact ⟨e, t, rfl, hk, hv⟩
  · intro e he hnt
    rcases hk : e.fskind with c | _ | t
    · simp [get_active_sandbox, he, hk]
    · simp [get_active_sandbox, he, hk]
    · exact absurd hk (hnt t)
  · intro h
    simp [get_active_sandbox, h]
  · intro v hv
    unfold get_active_sandbox at hv
    rcases hfe : findEntry d "current-sandbox" with _ | e
    · rw [hfe] at hv; simp at hv
    · rw [hfe] at hv
      rcases hk : e.fskind with c | _ | t
      · simp [hk] at hv
      · simp [hk] at hv
      · simp only [hk] at hv
        exact ⟨e, t, rfl, hk, hv⟩

/-- Directory used by the C10 witness: both pointer paths exist but are
not symlinks (a regular file and a directory). -/
def c10dir : Dir := [⟨"current.sif", .file "x", 1⟩, ⟨"current-sandbox", .dir, 2⟩]

/-- Witness for C10: a regular file named `current.sif` and a directory
named `current-sandbox` both yield no active version. -/
theorem spec_c10_witness :
    get_active_version c10dir = none ∧ get_active_sandbox c10dir = none := by
  exact ⟨(spec_c10 c10dir).1 ⟨"current.sif", .file "x", 1⟩ (by decide)
      (fun t h => FsKind.noConfusion h),
    (spec_c10 c10dir).2.2.2.1 ⟨"current-sandbox", .dir, 2⟩ (by decide)
      (fun t h => FsKind.noConfusion h)⟩

/-- C1 (amended): switching to a version whose formatted name parses
back to it makes the active lookup return exactly that version — for
images this additionally needs the target entry to be a regular file
(a symlink artifact would be resolved further by `Path.resolve` and
can report a different name); and when the target artifact is missing,
the switch raises `FileNotFoundError` before touching anything, leaving
the whole directory — in particular the pointer — unchanged. -/
theorem spec_c1 (d : Dir) (v : String) :
    (∀ c t,
      findEntry d ("scitex-v" ++ v ++ ".sif")
          = some ⟨"scitex-v" ++ v ++ ".sif", .file c, t⟩ →
      parse_version ("scitex-v" ++ v ++ ".sif") = some v →
      (switch_version v d).2 = .ok () ∧
      get_active_version (switch_version v d).1 = some v) ∧
    (pexists d ("scitex-v" ++ v ++ ".sif") = false →
      (∃ m, (switch_version v d).2 = .error (.fileNotFound m)) ∧
      (switch_version v d).1 = d) ∧
    (isDirB d ("sandbox-" ++ v) = true →
      parse_sandbox_version ("sandbox-" ++ v) = some v →
      (switch_sandbox v d).2 = .ok () ∧
      get_active_sandbox (switch_sandbox v d).1 = some v) ∧
    (isDirB d ("sandbox-" ++ v) = false →
      (∃ m, (switch_sandbox v d).2 = .error (.fileNotFound m)) ∧
      (switch_sandbox v d).1 = d) := by
  refine ⟨?_, ?_, ?_, ?_⟩
  · intro c t hfe hpv
    have hex : pexists d ("scitex-v" ++ v ++ ".sif") = true := by
      unfold pexists
      rw [resolveKind, hfe]
      simp
    have h1 : (switch_version v d).1
        = setEntry d "current.sif" (.symlink ("scitex-v" ++ v ++ ".sif")) := by
      simp [switch_version, hex]
    refine ⟨by simp [switch_version, hex], ?_⟩
    rw [h1]
    have htn : "scitex-v" ++ v ++ ".sif" ≠ "current.sif" := by
      intro h
      rw [h, parse_version_current] at hpv
      simp at hpv
    have h3 : findEntry
        (setEntry d "current.sif" (.symlink ("scitex-v" ++ v ++ ".sif")))
        ("scitex-v" ++ v ++ ".sif") = findEntry d ("scitex-v" ++ v ++ ".sif") :=
      findEntry_setEntry_ne d _ _ htn
    have h4 : ∀ fuel, resolveName
        (setEntry d "current.sif" (.symlink ("scitex-v" ++ v ++ ".sif"))) fuel
        ("scitex-v" ++ v ++ ".sif") = "scitex-v" ++ v ++ ".sif" := by
      intro fuel
      rw [resolveName, h3, hfe]
    have h5 : get_active_version
        (setEntry d "current.sif" (.symlink ("scitex-v" ++ v ++ ".sif")))
        = parse_version (resolveName
            (setEntry d "current.sif" (.symlink ("scitex-v" ++ v ++ ".sif")))
            (setEntry d "current.sif" (.symlink ("scitex-v" ++ v ++ ".sif"))).length
            ("scitex-v" ++ v ++ ".sif")) := by
      simp [get_active_version, findEntry_setEntry_self]
    rw [h5, h4, hpv]
  · intro hne
    refine ⟨⟨"Version " ++ v ++ " not found: " ++ ("scitex-v" ++ v ++ ".sif"), ?_⟩, ?_⟩ <;>
      simp [switch_version, hne]
  · intro hdir hpv
    have h1 : (switch_sandbox v d).1
        = setEntry d "current-sandbox" (.symlink ("sandbox-" ++ v)) := by
      simp [switch_sandbox, hdir]
    refine ⟨by simp [switch_sandbox, hdir], ?_⟩
    rw [h1]
    unfold get_active_sandbox
    rw [findEntry_setEntry_self]
    exact hpv
  · intro hne
    refine ⟨⟨"Sandbox " ++ v ++ " not found: " ++ ("sandbox-" ++ v), ?_⟩, ?_⟩ <;>
      simp [switch_sandbox, hne]

/-- Directory used by the C1 witness: one valid image artifact and one
valid sandbox artifact. -/
def c1dir : Dir :=
  [⟨"scitex-v2.19.5.sif", .file "img", 3⟩, ⟨"sandbox-20260225_173700", .dir, 4⟩]

/-- Witness for C1 at concrete inputs: a successful switch of each
kind, and a missing-target switch of each kind. -/
theorem spec_c1_witness :
    ((switch_version "2.19.5" c1dir).2 = .ok () ∧
      get_active_version (switch_version "2.19.5" c1dir).1 = some "2.19.5") ∧
    ((∃ m, (switch_version "9" c1dir).2 = .error (.fileNotFound m)) ∧
      (switch_version "9" c1dir).1 = c1dir) ∧
    ((switch_sandbox "20260225_173700" c1dir).2 = .ok () ∧
      get_active_sandbox (switch_sandbox "20260225_173700" c1dir).1
        = some "20260225_173700") ∧
    ((∃ m, (switch_sandbox "99999999_999999" c1dir).2 = .error (.fileNotFound m)) ∧
      (switch_sandbox "99999999_999999" c1dir).1 = c1dir) := by
  exact ⟨(spec_c1 c1dir "2.19.5").1 "img" 3 (by decide) (by decide),
    (spec_c1 c1dir "9").2.1 (by decide),
    (spec_c1 c1dir "20260225_173700").2.2.1 (by decide) (by decide),
    (spec_c1 c1dir "99999999_999999").2.2.2 (by decide)⟩

/-- Counterexample to C1 as stated: with the version string `""` and a
file literally named `scitex-v.sif`, the switch succeeds (the target
exists) but the active lookup returns `none`, not `some ""` — the
post-switch lookup equals the switched-to version only for
pattern-conforming versions. -/
theorem spec_c1_cex :
    (switch_version "" [⟨"scitex-v.sif", FsKind.file "x", 5⟩]).2 = .ok () ∧
    get_active_version (switch_version "" [⟨"scitex-v.sif", FsKind.file "x", 5⟩]).1
      = none := by
  exact ⟨rfl, rfl⟩

/-- C4 (amended): listing an existing empty directory yields an empty
result for both kinds; listing a missing directory raises
`FileNotFoundError` for sandboxes (`iterdir`) but yields an empty
sequence, without failing, for images (`glob` swallows the missing
directory). -/
theorem spec_c4 :
    (list_versions_fs (some []) = [] ∧ list_sandboxes_fs (some ([] : Dir)) = .ok []) ∧
    (∃ m, list_sandboxes_fs none = .error (.fileNotFound m) ∧
      versioned_sandboxes_fs none = .error (.fileNotFound m)) ∧
    (list_versions_fs none = [] ∧ versioned_sifs_fs none = []) := by
  exact ⟨⟨rfl, rfl⟩, ⟨"No such file or directory", rfl, rfl⟩, rfl, rfl⟩

/-- Counterexample to C4 as stated: the image-kind listing of a missing
directory returns an empty list instead of failing with NotFound — its
result type has no failure channel at all, because `pathlib.glob`
yields nothing for a missing directory and nothing else in
`list_versions` raises. -/
theorem spec_c4_cex :
    list_versions_fs none = [] ∧ versioned_sifs_fs none = [] ∧
    get_active_version_fs none = none := by
  exact ⟨rfl, rfl, rfl⟩

/-- A concrete stand-in digest function for witnesses: the staleness
and verification logic is parametric in the digest, which is never
empty (SHA-256 hex digests have 64 characters). -/
def demoHash (s : String) : String := "h" ++ s

theorem demoHash_ne_empty : ∀ s, demoHash s ≠ "" := by
  intro s h
  have h2 := congrArg String.data h
  simp [demoHash, String.data_append] at h2

/-- C8 (amended): when the artifact exists, the staleness flag is true
exactly when the sidecar is missing or the digest of the definition
differs from the (stripped) sidecar content, and false exactly when the
digest equals it; when the artifact is missing, the flag is true
regardless.  The flag depends on the artifact's presence but never on
its content, and the analogous up-to-date short-circuit of `build`
behaves the same way. -/
theorem spec_c8 (hash : String → String) (hne : ∀ s, hash s ≠ "")
    (defContent sifContent1 sifContent2 : String) (hashFile : Option String) (b : Bool) :
    (needs_rebuild hash defContent hashFile true sifContent1 = false ↔
      hash defContent = storedHash hashFile) ∧
    (needs_rebuild hash defContent hashFile true sifContent1 = true ↔
      hashFile = none ∨ hash defContent ≠ storedHash hashFile) ∧
    (needs_rebuild hash defContent hashFile false sifContent1 = true) ∧
    (needs_rebuild hash defContent hashFile b sifContent1
      = needs_rebuild hash defContent hashFile b sifContent2) ∧
    (build_skips_rebuild hash false true hashFile defContent = true ↔
      hashFile ≠ none ∧ hash defContent = storedHash hashFile) ∧
    (build_skips_rebuild hash false false hashFile defContent = false) := by
  refine ⟨?_, ?_, rfl, rfl, ?_, ?_⟩
  · simp [needs_rebuild]
  · constructor
    · intro h
      by_cases hh : hashFile = none
      · exact Or.inl hh
      · refine Or.inr ?_
        simp [needs_rebuild] at h
        exact h
    · intro h
      rcases h with h | h
      · subst h
        simp [needs_rebuild, storedHash]
        exact hne defContent
      · simp [needs_rebuild]
        exact h
  · rcases hashFile with _ | c
    · simp [build_skips_rebuild]
    · simp [build_skips_rebuild, storedHash]
  · simp [build_skips_rebuild]

/-- Witness for C8 at concrete inputs. -/
theorem spec_c8_witness :
    needs_rebuild demoHash "d" none true "x" = true ∧
    needs_rebuild demoHash "d" (some "hd") true "x" = false := by
  have h1 := spec_c8 demoHash demoHash_ne_empty "d" "x" "y" none true
  have h2 := spec_c8 demoHash demoHash_ne_empty "d" "x" "y" (some "hd") true
  exact ⟨h1.2.1.mpr (Or.inl rfl), h2.1.mpr (by decide)⟩

/-- Counterexample to C8 as stated: with the artifact missing but the
sidecar holding exactly the digest of the definition, the flag is true
even though the digest equals the stored content — so "false exactly
when the digest equals the stored content" fails, and the result
depends on the artifact's presence (`status` forces `needs_rebuild` to
`True` whenever the SIF is absent; `build` likewise rebuilds when the
output is absent). -/
theorem spec_c8_cex :
    needs_rebuild demoHash "defsrc" (some "hdefsrc") false "sifbytes" = true ∧
    demoHash "defsrc" = storedHash (some "hdefsrc") := by
  exact ⟨rfl, by decide⟩

/-- Names removed by `cleanup_sandboxes` all parse. -/
theorem cleanup_sandboxes_removed_parses {d : Dir} {keep : Nat} {n : String}
    (hn : n ∈ (cleanup_sandboxes d keep).2) :
    (parse_sandbox_version n).isSome = true := by
  have hn' : n ∈ retainLoop (sandboxSkip (get_active_sandbox d)) keep 0
      (versioned_sandboxes d) := hn
  obtain ⟨e, he, hname, _⟩ := mem_retainLoop hn'
  rw [← hname]
  exact (mem_versioned_sandboxes.mp he).2.2

/-- C2: for every directory and every `keep`, the retention cleanup of
either kind never removes an artifact whose derived version equals the
active version (also when the pointer dangles: the check compares only
version strings), and the catalogued non-active artifacts split into
`min keep totalNonActive` retained plus the removed rest. -/
theorem spec_c2 (d : Dir) (keep : Nat) :
    (∀ n ∈ (cleanup d keep).2, ∀ a, get_active_version d = some a →
      parse_version n ≠ some a) ∧
    ((versioned_sifs d).filter
        (fun e => !isActiveSif (get_active_version d) e)).length
      = min keep ((versioned_sifs d).filter
          (fun e => !isActiveSif (get_active_version d) e)).length
        + (cleanup d keep).2.length ∧
    (∀ n ∈ (cleanup_sandboxes d keep).2, ∀ a, get_active_sandbox d = some a →
      parse_sandbox_version n ≠ some a) ∧
    ((versioned_sandboxes d).filter
        (fun e => !isActiveSandbox (get_active_sandbox d) e)).length
      = min keep ((versioned_sandboxes d).filter
          (fun e => !isActiveSandbox (get_active_sandbox d) e)).length
        + (cleanup_sandboxes d keep).2.length := by
  refine ⟨cleanup_not_active d keep, ?_, cleanup_sandboxes_not_active d keep, ?_⟩
  · have hcong : (versioned_sifs d).filter
        (fun e => !sifSkip (get_active_version d) e)
        = (versioned_sifs d).filter
            (fun e => !isActiveSif (get_active_version d) e) := by
      apply List.filter_congr
      intro e he
      rw [sifSkip_eq_isActive (mem_versioned_sifs.mp he).2.1]
    have h := retainLoop_length (sifSkip (get_active_version d)) keep 0 (versioned_sifs d)
    rw [hcong] at h
    have hc2 : (cleanup d keep).2
        = retainLoop (sifSkip (get_active_version d)) keep 0 (versioned_sifs d) := rfl
    rw [hc2]
    omega
  · have hcong : (versioned_sandboxes d).filter
        (fun e => !sandboxSkip (get_active_sandbox d) e)
        = (versioned_sandboxes d).filter
            (fun e => !isActiveSandbox (get_active_sandbox d) e) := by
      apply List.filter_congr
      intro e he
      rw [sandboxSkip_eq_isActive (mem_versioned_sandboxes.mp he).2.2]
    have h := retainLoop_length (sandboxSkip (get_active_sandbox d)) keep 0
      (versioned_sandboxes d)
    rw [hcong] at h
    have hc2 : (cleanup_sandboxes d keep).2
        = retainLoop (sandboxSkip (get_active_sandbox d)) keep 0
            (versioned_sandboxes d) := rfl
    rw [hc2]
    omega

/-- Directory used by the C2 witness: three images (oldest `1`, then
`2`, newest `3` which is active) and three sandboxes with the middle
one active. -/
def c2dir : Dir :=
  [⟨"scitex-v1.sif", .file "a", 1⟩, ⟨"scitex-v2.sif", .file "b", 2⟩,
   ⟨"scitex-v3.sif", .file "c", 3⟩, ⟨"current.sif", .symlink "scitex-v3.sif", 9⟩,
   ⟨"sandbox-20260101_000000", .dir, 4⟩, ⟨"sandbox-20260102_000000", .dir, 5⟩,
   ⟨"sandbox-20260103_000000", .dir, 6⟩,
   ⟨"current-sandbox", .symlink "sandbox-20260102_000000", 9⟩]

/-- Witness for C2: `cleanup(keep=1)` removes exactly the oldest
non-active image, and `cleanup_sandboxes(keep=1)` keeps the active
sandbox plus the newest non-active one. -/
theorem spec_c2_witness :
    (cleanup c2dir 1).2 = ["scitex-v1.sif"] ∧
    parse_version "scitex-v1.sif" ≠ some "3" ∧
    (cleanup_sandboxes c2dir 1).2 = ["sandbox-20260101_000000"] ∧
    parse_sandbox_version "sandbox-20260101_000000" ≠ some "20260102_000000" := by
  refine ⟨by decide, ?_, by decide, ?_⟩
  · exact (spec_c2 c2dir 1).1 "scitex-v1.sif" (by decide) "3" (by decide)
  · exact (spec_c2 c2dir 1).2.2.1 "sandbox-20260101_000000" (by decide)
      "20260102_000000" (by decide)

/-- Membership in the first purge phase implies the `*.sif.old` glob. -/
theorem mem_phase_globSifOld {d : Dir} {n : String}
    (h : n ∈ (d.filter (fun e => globSifOld e.name && isFileB d e.name)).map
      FsEntry.name) : globSifOld n = true := by
  obtain ⟨e, he, hname⟩ := List.mem_map.mp h
  rcases List.mem_filter.mp he with ⟨_, hp⟩
  rw [← hname]
  simp only [Bool.and_eq_true] at hp
  exact hp.1

/-- Membership in the second purge phase implies the `*.sif.backup.*`
glob. -/
theorem mem_phase_globSifBackup {d : Dir} {n : String}
    (h : n ∈ (d.filter (fun e => globSifBackup e.name && isFileB d e.name)).map
      FsEntry.name) : globSifBackup n = true := by
  obtain ⟨e, he, hname⟩ := List.mem_map.mp h
  rcases List.mem_filter.mp he with ⟨_, hp⟩
  rw [← hname]
  simp only [Bool.and_eq_true] at hp
  exact hp.1

/-- Membership in the versioned-drop purge phase implies the name
parses. -/
theorem mem_phase_dropped {d : Dir} {keep : Nat} {n : String}
    (h : n ∈ ((versioned_sifs d).drop keep).map FsEntry.name) :
    (parse_version n).isSome = true := by
  obtain ⟨e, he, hname⟩ := List.mem_map.mp h
  rw [← hname]
  exact (mem_versioned_sifs.mp (List.drop_subset _ _ he)).2.1

/-- C5 (amended): the retention cleanups never delete the pointer file
of their kind and never remove the artifact carrying the active
version; the purge variant `cleanup_sifs`, however, removes the
`current.sif` pointer whenever it is present as a symlink — for every
`keep`, not only when purging everything — and applies no
active-version protection at all (see the counterexample). -/
theorem spec_c5 (d : Dir) (keep : Nat) :
    (("current.sif" : String) ∉ (cleanup d keep).2 ∧
      findEntry (cleanup d keep).1 "current.sif" = findEntry d "current.sif") ∧
    (("current-sandbox" : String) ∉ (cleanup_sandboxes d keep).2 ∧
      findEntry (cleanup_sandboxes d keep).1 "current-sandbox"
        = findEntry d "current-sandbox") ∧
    (∀ n ∈ (cleanup d keep).2, ∀ a, get_active_version d = some a →
      parse_version n ≠ some a) ∧
    (∀ n ∈ (cleanup_sandboxes d keep).2, ∀ a, get_active_sandbox d = some a →
      parse_sandbox_version n ≠ some a) ∧
    (∀ t m, findEntry d "current.sif" = some ⟨"current.sif", .symlink t, m⟩ →
      ("current.sif" : String) ∈ (cleanup_sifs d keep).2 ∧
      findEntry (cleanup_sifs d keep).1 "current.sif" = none) := by
  have hptr_img : ("current.sif" : String) ∉ (cleanup d keep).2 := by
    intro hmem
    have := cleanup_removed_parses hmem
    rw [parse_version_current] at this
    simp at this
  have hptr_sb : ("current-sandbox" : String) ∉ (cleanup_sandboxes d keep).2 := by
    intro hmem
    have h := cleanup_sandboxes_removed_parses hmem
    have : parse_sandbox_version "current-sandbox" = none := by decide
    rw [this] at h
    simp at h
  refine ⟨⟨hptr_img, findEntry_removeNames_not_mem hptr_img⟩,
    ⟨hptr_sb, findEntry_removeNames_not_mem hptr_sb⟩,
    cleanup_not_active d keep, cleanup_sandboxes_not_active d keep, ?_⟩
  intro t m hfe
  simp only [cleanup_sifs]
  set d1 := removeNames d
    ((d.filter (fun e => globSifOld e.name && isFileB d e.name)).map FsEntry.name)
    with hd1
  set d2 := removeNames d1
    ((d1.filter (fun e => globSifBackup e.name && isFileB d1 e.name)).map FsEntry.name)
    with hd2
  set d3 := removeNames d2 (((versioned_sifs d2).drop keep).map FsEntry.name) with hd3
  set strays := (d3.filter (fun e =>
    globAnySif e.name && isFileB d3 e.name && (parse_version e.name).isNone)).map
    FsEntry.name with hstrays
  set d4 := removeNames d3 strays with hd4
  have h3 : findEntry d3 "current.sif" = some ⟨"current.sif", .symlink t, m⟩ := by
    rw [hd3, hd2, hd1]
    rw [findEntry_removeNames_not_mem (fun hc => by
      have := mem_phase_dropped hc
      rw [parse_version_current] at this
      simp at this)]
    rw [findEntry_removeNames_not_mem (fun hc => by
      have := mem_phase_globSifBackup hc
      rw [show globSifBackup "current.sif" = false by decide] at this
      simp at this)]
    rw [findEntry_removeNames_not_mem (fun hc => by
      have := mem_phase_globSifOld hc
      rw [show globSifOld "current.sif" = false by decide] at this
      simp at this)]
    exact hfe
  by_cases hs : ("current.sif" : String) ∈ strays
  · have h4 : findEntry d4 "current.sif" = none := by
      rw [hd4]
      exact findEntry_removeNames_mem hs
    rw [h4]
    constructor
    · simp [hs]
    · exact h4
  · have h4 : findEntry d4 "current.sif" = some ⟨"current.sif", .symlink t, m⟩ := by
      rw [hd4]
      rw [findEntry_removeNames_not_mem hs]
      exact h3
    rw [h4]
    constructor
    · simp
    · exact findEntry_removeNames_mem (by simp)

/-- Directory used by the C5 counterexample: two images with the older
one active. -/
def c5dir : Dir :=
  [⟨"scitex-v1.sif", .file "a", 1⟩, ⟨"scitex-v2.sif", .file "b", 2⟩,
   ⟨"current.sif", .symlink "scitex-v1.sif", 3⟩]

/-- Counterexample to C5 as stated: with `keep = 1` — not a
purge-everything call — `cleanup_sifs` removes both the artifact the
active pointer resolves to (`scitex-v1.sif`, the active version) and
the `current.sif` pointer itself. -/
theorem spec_c5_cex :
    get_active_version c5dir = some "1" ∧
    (cleanup_sifs c5dir 1).2 = ["scitex-v1.sif", "current.sif"] ∧
    findEntry (cleanup_sifs c5dir 1).1 "current.sif" = none := by
  exact ⟨rfl, rfl, rfl⟩

/-- Witness for C5: the retention cleanup of `c2dir` touches neither
pointer, and the purge on `c5dir` removes the pointer. -/
theorem spec_c5_witness :
    findEntry (cleanup c2dir 1).1 "current.sif" = findEntry c2dir "current.sif" ∧
    findEntry (cleanup_sandboxes c2dir 1).1 "current-sandbox"
      = findEntry c2dir "current-sandbox" ∧
    (("current.sif" : String) ∈ (cleanup_sifs c5dir 2).2 ∧
      findEntry (cleanup_sifs c5dir 2).1 "current.sif" = none) := by
  exact ⟨(spec_c5 c2dir 1).1.2, (spec_c5 c2dir 1).2.1.2,
    (spec_c5 c5dir 2).2.2.2.2 "scitex-v1.sif" 3 (by decide)⟩

/-- Adjacent entries of a newest-first sorted list have non-increasing
mtimes. -/
theorem sorted_mtime_get? {l : List FsEntry} (hs : List.Sorted mtimeGE l) {i : Nat}
    {a b : FsEntry} (ha : l.get? i = some a) (hb : l.get? (i + 1) = some b) :
    b.mtime ≤ a.mtime := by
  obtain ⟨hi, hga⟩ := List.get?_eq_some.mp ha
  obtain ⟨hj, hgb⟩ := List.get?_eq_some.mp hb
  have hlt : (⟨i, hi⟩ : Fin l.length) < ⟨i + 1, hj⟩ := by
    simp [Fin.mk_lt_mk]
  have hrel := List.Sorted.rel_get_of_lt hs hlt
  rw [hga, hgb] at hrel
  exact hrel

/-- An in-range catalog position holds an entry whose name parses; used
to step from index `i + 1` to the version the rollback switches to. -/
theorem versioned_sifs_get_parse {d : Dir} {i : Nat}
    (hlt : i < (versioned_sifs d).length) :
    ∃ e p, (versioned_sifs d).get? i = some e ∧ parse_version e.name = some p := by
  obtain ⟨e, he⟩ : ∃ e, (versioned_sifs d).get? i = some e := by
    rw [List.get?_eq_get hlt]
    exact ⟨_, rfl⟩
  have hps := (mem_versioned_sifs.mp (List.get?_mem he)).2.1
  rcases hpe : parse_version e.name with _ | p
  · rw [hpe] at hps; simp at hps
  · exact ⟨e, p, he, hpe⟩

/-- Sandbox analogue of `versioned_sifs_get_parse`. -/
theorem versioned_sandboxes_get_parse {d : Dir} {i : Nat}
    (hlt : i < (versioned_sandboxes d).length) :
    ∃ e p, (versioned_sandboxes d).get? i = some e ∧
      parse_sandbox_version e.name = some p := by
  obtain ⟨e, he⟩ : ∃ e, (versioned_sandboxes d).get? i = some e := by
    rw [List.get?_eq_get hlt]
    exact ⟨_, rfl⟩
  have hps := (mem_versioned_sandboxes.mp (List.get?_mem he)).2.2
  rcases hpe : parse_sandbox_version e.name with _ | p
  · rw [hpe] at hps; simp at hps
  · exact ⟨e, p, he, hpe⟩

/-- A catalogued image entry can be switched to: its name is the
formatted version and the path exists. -/
theorem pexists_of_catalog {d : Dir} {e : FsEntry} {p : String}
    (hmem : e ∈ versioned_sifs d) (hpe : parse_version e.name = some p) :
    e.name = "scitex-v" ++ p ++ ".sif" ∧
      pexists d ("scitex-v" ++ p ++ ".sif") = true := by
  have hname : e.name = "scitex-v" ++ p ++ ".sif" := by
    apply data_injective
    rw [(parse_version_eq_some hpe).1, String.data_append, String.data_append]
  refine ⟨hname, ?_⟩
  rw [← hname]
  exact pexists_of_isFileB (mem_versioned_sifs.mp hmem).2.2

/-- A catalogued sandbox entry can be switched to. -/
theorem isDirB_of_catalog {d : Dir} {e : FsEntry} {p : String}
    (hmem : e ∈ versioned_sandboxes d) (hpe : parse_sandbox_version e.name = some p) :
    e.name = "sandbox-" ++ p ∧ isDirB d ("sandbox-" ++ p) = true := by
  have hname : e.name = "sandbox-" ++ p := by
    apply data_injective
    rw [(parse_sandbox_version_eq_some hpe).1, String.data_append]
  refine ⟨hname, ?_⟩
  rw [← hname]
  exact (mem_versioned_sandboxes.mp hmem).2.1

/-- C3: with the catalog ordered newest first and `i` the index of the
active version in the mapped version list, rollback fails with a
`RuntimeError` — the Conflict class, the same exception class in both
cases though with different messages — both when the active version is
absent from the catalog and when `i` is the last index; otherwise it
switches to the artifact at index `i + 1` and returns that artifact's
version.  Both kinds behave identically. -/
theorem spec_c3 (d : Dir) :
    (∀ a, get_active_version d = some a →
      (pyIndex (some a) ((versioned_sifs d).map (fun s => parse_version s.name))
          = none →
        ∃ m, (rollback d).2 = .error (.runtimeError m) ∧ (rollback d).1 = d) ∧
      (∀ i, pyIndex (some a)
          ((versioned_sifs d).map (fun s => parse_version s.name)) = some i →
        i + 1 ≥ ((versioned_sifs d).map (fun s => parse_version s.name)).length →
        ∃ m, (rollback d).2 = .error (.runtimeError m) ∧ (rollback d).1 = d) ∧
      (∀ i, pyIndex (some a)
          ((versioned_sifs d).map (fun s => parse_version s.name)) = some i →
        i + 1 < ((versioned_sifs d).map (fun s => parse_version s.name)).length →
        ∃ p, ((versioned_sifs d).map (fun s => parse_version s.name)).get? (i + 1)
            = some (some p) ∧
          (rollback d).2 = .ok p ∧ (rollback d).1 = (switch_version p d).1)) ∧
    (∀ a, get_active_sandbox d = some a →
      (pyIndex (some a)
          ((versioned_sandboxes d).map (fun s => parse_sandbox_version s.name))
          = none →
        ∃ m, (rollback_sandbox d).2 = .error (.runtimeError m) ∧
          (rollback_sandbox d).1 = d) ∧
      (∀ i, pyIndex (some a)
          ((versioned_sandboxes d).map (fun s => parse_sandbox_version s.name))
          = some i →
        i + 1 ≥ ((versioned_sandboxes d).map
          (fun s => parse_sandbox_version s.name)).length →
        ∃ m, (rollback_sandbox d).2 = .error (.runtimeError m) ∧
          (rollback_sandbox d).1 = d) ∧
      (∀ i, pyIndex (some a)
          ((versioned_sandboxes d).map (fun s => parse_sandbox_version s.name))
          = some i →
        i + 1 < ((versioned_sandboxes d).map
          (fun s => parse_sandbox_version s.name)).length →
        ∃ p, ((versioned_sandboxes d).map
            (fun s => parse_sandbox_version s.name)).get? (i + 1)
            = some (some p) ∧
          (rollback_sandbox d).2 = .ok p ∧
          (rollback_sandbox d).1 = (switch_sandbox p d).1)) := by
  constructor
  · intro a ha
    refine ⟨?_, ?_, ?_⟩
    · intro hidx
      refine ⟨"Active version " ++ a ++ " not found in directory", ?_, ?_⟩ <;>
        simp [rollback, ha, hidx]
    · intro i hidx hge
      have hge2 : (versioned_sifs d).length ≤ i + 1 := by simpa using hge
      refine ⟨"No older version available to roll back to (current: " ++ a ++ ")",
        ?_, ?_⟩ <;> simp [rollback, ha, hidx, hge2]
    · intro i hidx hlt
      have hlt' : i + 1 < (versioned_sifs d).length := by
        simpa using hlt
      obtain ⟨e, p, he, hpe⟩ := versioned_sifs_get_parse hlt'
      have hv2 : ((versioned_sifs d).map (fun s => parse_version s.name)).get? (i + 1)
          = some (some p) := by
        rw [List.get?_map, he]
        simp [hpe]
      obtain ⟨hname, hex⟩ := pexists_of_catalog (List.get?_mem he) hpe
      have hsw : switch_version p d
          = (setEntry d "current.sif" (.symlink ("scitex-v" ++ p ++ ".sif")), .ok ()) := by
        simp [switch_version, hex]
      have he2 : (versioned_sifs d)[i + 1]? = some e := by
        rw [← List.get?_eq_getElem?]
        exact he
      refine ⟨p, hv2, ?_, ?_⟩ <;>
        simp [rollback, ha, hidx, Nat.not_le.mpr hlt', he2, hpe, hsw, Except.map]
  · intro a ha
    refine ⟨?_, ?_, ?_⟩
    · intro hidx
      refine ⟨"Active sandbox " ++ a ++ " not found in directory", ?_, ?_⟩ <;>
        simp [rollback_sandbox, ha, hidx]
    · intro i hidx hge
      have hge2 : (versioned_sandboxes d).length ≤ i + 1 := by simpa using hge
      refine ⟨"No older sandbox to roll back to (current: " ++ a ++ ")", ?_, ?_⟩ <;>
        simp [rollback_sandbox, ha, hidx, hge2]
    · intro i hidx hlt
      have hlt' : i + 1 < (versioned_sandboxes d).length := by
        simpa using hlt
      obtain ⟨e, p, he, hpe⟩ := versioned_sandboxes_get_parse hlt'
      have hv2 : ((versioned_sandboxes d).map
          (fun s => parse_sandbox_version s.name)).get? (i + 1) = some (some p) := by
        rw [List.get?_map, he]
        simp [hpe]
      obtain ⟨hname, hdir⟩ := isDirB_of_catalog (List.get?_mem he) hpe
      have hsw : switch_sandbox p d
          = (setEntry d "current-sandbox" (.symlink ("sandbox-" ++ p)), .ok ()) := by
        simp [switch_sandbox, hdir]
      have he2 : (versioned_sandboxes d)[i + 1]? = some e := by
        rw [← List.get?_eq_getElem?]
        exact he
      refine ⟨p, hv2, ?_, ?_⟩ <;>
        simp [rollback_sandbox, ha, hidx, Nat.not_le.mpr hlt', he2, hpe, hsw,
          Except.map]

/-- Directory used by the C3 witness success case: two images with the
newer one active. -/
def c3dir : Dir :=
  [⟨"scitex-v1.sif", .file "a", 1⟩, ⟨"scitex-v2.sif", .file "b", 2⟩,
   ⟨"current.sif", .symlink "scitex-v2.sif", 9⟩]

/-- Directory used by the C3 witness not-in-catalog case: the sandbox
pointer names a pattern-conforming sandbox that is not on disk. -/
def c3dirB : Dir :=
  [⟨"sandbox-20260101_000000", .dir, 1⟩,
   ⟨"current-sandbox", .symlink "sandbox-20270101_000000", 2⟩]

/-- Witness for C3 at concrete inputs: a successful rollback to index
`i + 1 = 1`, and a dangling active sandbox reported as a
`RuntimeError`. -/
theorem spec_c3_witness :
    (∃ p, ((versioned_sifs c3dir).map (fun s => parse_version s.name)).get? 1
        = some (some p) ∧
      (rollback c3dir).2 = .ok p ∧ (rollback c3dir).1 = (switch_version p c3dir).1) ∧
    (∃ m, (rollback_sandbox c3dirB).2 = .error (.runtimeError m) ∧
      (rollback_sandbox c3dirB).1 = c3dirB) := by
  have h1 := (spec_c3 c3dir).1 "2" (by decide)
  have h2 := (spec_c3 c3dirB).2 "20270101_000000" (by decide)
  exact ⟨h1.2.2 0 (by decide) (by decide), h2.1 (by decide)⟩

/-- C6: a successful rollback moves the pointer to the entry one place
older in the newest-first catalog, so the newly active artifact's mtime
never exceeds the previously active one's; and with exactly one
versioned artifact, rollback fails with a `RuntimeError` (the Conflict
class) and the directory — in particular the pointer — is unchanged. -/
theorem spec_c6 (d : Dir) :
    (∀ p, (rollback d).2 = .ok p →
      ∃ i ei ej, (versioned_sifs d).get? i = some ei ∧
        (versioned_sifs d).get? (i + 1) = some ej ∧
        parse_version ei.name = get_active_version d ∧
        parse_version ej.name = some p ∧ ej.mtime ≤ ei.mtime) ∧
    ((versioned_sifs d).length = 1 →
      ∃ m, (rollback d).2 = .error (.runtimeError m) ∧ (rollback d).1 = d) ∧
    (∀ p, (rollback_sandbox d).2 = .ok p →
      ∃ i ei ej, (versioned_sandboxes d).get? i = some ei ∧
        (versioned_sandboxes d).get? (i + 1) = some ej ∧
        parse_sandbox_version ei.name = get_active_sandbox d ∧
        parse_sandbox_version ej.name = some p ∧ ej.mtime ≤ ei.mtime) ∧
    ((versioned_sandboxes d).length = 1 →
      ∃ m, (rollback_sandbox d).2 = .error (.runtimeError m) ∧
        (rollback_sandbox d).1 = d) := by
  refine ⟨?_, ?_, ?_, ?_⟩
  · intro p hp
    rcases ha : get_active_version d with _ | a
    · simp [rollback, ha] at hp
    · rcases hidx : pyIndex (some a)
          ((versioned_sifs d).map (fun s => parse_version s.name)) with _ | i
      · simp [rollback, ha, hidx] at hp
      · by_cases hge : i + 1 ≥ ((versioned_sifs d).map
            (fun s => parse_version s.name)).length
        · have hge2 : (versioned_sifs d).length ≤ i + 1 := by simpa using hge
          simp [rollback, ha, hidx, hge2] at hp
        · have hlt : i + 1 < (versioned_sifs d).length := by
            have := Nat.not_le.mp hge
            simpa using this
          obtain ⟨ej, q, hej, hpej⟩ := versioned_sifs_get_parse hlt
          have hv2 : ((versioned_sifs d).map (fun s => parse_version s.name)).get?
              (i + 1) = some (some q) := by
            rw [List.get?_map, hej]
            simp [hpej]
          obtain ⟨hname, hex⟩ := pexists_of_catalog (List.get?_mem hej) hpej
          have hsw : switch_version q d
              = (setEntry d "current.sif" (.symlink ("scitex-v" ++ q ++ ".sif")),
                  .ok ()) := by
            simp [switch_version, hex]
          have he2 : (versioned_sifs d)[i + 1]? = some ej := by
            rw [← List.get?_eq_getElem?]
            exact hej
          simp [rollback, ha, hidx, Nat.not_le.mpr hlt, he2, hpej, hsw,
            Except.map] at hp
          have hia := pyIndex_get? hidx
          rcases hei : (versioned_sifs d).get? i with _ | ei
          · rw [List.get?_map, hei] at hia
            simp at hia
          · rw [List.get?_map, hei] at hia
            simp only [Option.map_some'] at hia
            refine ⟨i, ei, ej, hei, hej, ?_, ?_, ?_⟩
            · exact Option.some.inj hia
            · rw [hpej, hp]
            · exact sorted_mtime_get? (versioned_sifs_sorted d) hei hej
  · intro hlen
    rcases ha : get_active_version d with _ | a
    · exact ⟨"No active version found; cannot rollback",
        by simp [rollback, ha], by simp [rollback, ha]⟩
    · rcases hidx : pyIndex (some a)
          ((versioned_sifs d).map (fun s => parse_version s.name)) with _ | i
      · exact ⟨"Active version " ++ a ++ " not found in directory",
          by simp [rollback, ha, hidx], by simp [rollback, ha, hidx]⟩
      · have hge : (versioned_sifs d).length ≤ i + 1 := by
          have h := pyIndex_get? hidx
          obtain ⟨hi, _⟩ := List.get?_eq_some.mp h
          simp only [List.length_map] at hi
          omega
        exact ⟨"No older version available to roll back to (current: " ++ a ++ ")",
          by simp [rollback, ha, hidx, hge], by simp [rollback, ha, hidx, hge]⟩
  · intro p hp
    rcases ha : get_active_sandbox d with _ | a
    · simp [rollback_sandbox, ha] at hp
    · rcases hidx : pyIndex (some a)
          ((versioned_sandboxes d).map (fun s => parse_sandbox_version s.name))
          with _ | i
      · simp [rollback_sandbox, ha, hidx] at hp
      · by_cases hge : i + 1 ≥ ((versioned_sandboxes d).map
            (fun s => parse_sandbox_version s.name)).length
        · have hge2 : (versioned_sandboxes d).length ≤ i + 1 := by simpa using hge
          simp [rollback_sandbox, ha, hidx, hge2] at hp
        · have hlt : i + 1 < (versioned_sandboxes d).length := by
            have := Nat.not_le.mp hge
            simpa using this
          obtain ⟨ej, q, hej, hpej⟩ := versioned_sandboxes_get_parse hlt
          have hv2 : ((versioned_sandboxes d).map
              (fun s => parse_sandbox_version s.name)).get? (i + 1)
              = some (some q) := by
            rw [List.get?_map, hej]
            simp [hpej]
          obtain ⟨hname, hdir⟩ := isDirB_of_catalog (List.get?_mem hej) hpej
          have hsw : switch_sandbox q d
              = (setEntry d "current-sandbox" (.symlink ("sandbox-" ++ q)),
                  .ok ()) := by
            simp [switch_sandbox, hdir]
          have he2 : (versioned_sandboxes d)[i + 1]? = some ej := by
            rw [← List.get?_eq_getElem?]
            exact hej
          simp [rollback_sandbox, ha, hidx, Nat.not_le.mpr hlt, he2, hpej, hsw,
            Except.map] at hp
          have hia := pyIndex_get? hidx
          rcases hei : (versioned_sandboxes d).get? i with _ | ei
          · rw [List.get?_map, hei] at hia
            simp at hia
          · rw [List.get?_map, hei] at hia
            simp only [Option.map_some'] at hia
            refine ⟨i, ei, ej, hei, hej, ?_, ?_, ?_⟩
            · exact Option.some.inj hia
            · rw [hpej, hp]
            · exact sorted_mtime_get? (versioned_sandboxes_sorted d) hei hej
  · intro hlen
    rcases ha : get_active_sandbox d with _ | a
    · exact ⟨"No active sandbox found; cannot rollback",
        by simp [rollback_sandbox, ha], by simp [rollback_sandbox, ha]⟩
    · rcases hidx : pyIndex (some a)
          ((versioned_sandboxes d).map (fun s => parse_sandbox_version s.name))
          with _ | i
      · exact ⟨"Active sandbox " ++ a ++ " not found in directory",
          by simp [rollback_sandbox, ha, hidx], by simp [rollback_sandbox, ha, hidx]⟩
      · have hge : (versioned_sandboxes d).length ≤ i + 1 := by
          have h := pyIndex_get? hidx
          obtain ⟨hi, _⟩ := List.get?_eq_some.mp h
          simp only [List.length_map] at hi
          omega
        exact ⟨"No older sandbox to roll back to (current: " ++ a ++ ")",
          by simp [rollback_sandbox, ha, hidx, hge],
          by simp [rollback_sandbox, ha, hidx, hge]⟩

/-- Directory used by the C6 witness: a single versioned image, active. -/
def c6dir : Dir :=
  [⟨"scitex-v1.sif", .file "a", 1⟩, ⟨"current.sif", .symlink "scitex-v1.sif", 2⟩]

/-- Witness for C6: rollback on a single-version directory fails with a
`RuntimeError` and leaves the directory unchanged; a successful
rollback on `c3dir` lands on an adjacent, not-newer catalog entry. -/
theorem spec_c6_witness :
    (∃ m, (rollback c6dir).2 = .error (.runtimeError m) ∧ (rollback c6dir).1 = c6dir) ∧
    (∃ i ei ej, (versioned_sifs c3dir).get? i = some ei ∧
      (versioned_sifs c3dir).get? (i + 1) = some ej ∧
      parse_version ei.name = get_active_version c3dir ∧
      parse_version ej.name = some "1" ∧ ej.mtime ≤ ei.mtime) := by
  exact ⟨(spec_c6 c6dir).2.1 (by decide), (spec_c6 c3dir).1 "1" rfl⟩

/-- One fail-propagation step keeps `pass` exactly on non-fail input. -/
theorem foldOverall1_pass_iff (a : CheckStatus) :
    foldOverall .pass a = .pass ↔ a ≠ .fail := by
  cases a <;> simp [foldOverall]

/-- Three fail-propagation steps keep `pass` exactly when none of the
three statuses failed. -/
theorem foldOverall3_pass_iff (a b c : CheckStatus) :
    foldOverall (foldOverall (foldOverall .pass a) b) c = .pass ↔
      a ≠ .fail ∧ b ≠ .fail ∧ c ≠ .fail := by
  cases a <;> cases b <;> cases c <;> simp [foldOverall]

/-- C9: the report's overall status is `pass` exactly when every
non-skipped check passed — artifact existence (a boolean, reported
truthfully and never skippable), `def_origin`, `pip_lock` and
`dpkg_lock`; in particular a missing artifact makes the whole report
fail. -/
theorem spec_c9 (hash : String → String) (inp : VerifyInput) :
    ((verify hash inp).overall = .pass ↔
      ((verify hash inp).sif.present = true ∧
        (verify hash inp).def_origin.status ≠ .fail ∧
        (verify hash inp).pip_lock.status ≠ .fail ∧
        (verify hash inp).dpkg_lock.status ≠ .fail)) ∧
    (inp.sifPresent = false → (verify hash inp).overall = .fail) ∧
    ((verify hash inp).sif.present = inp.sifPresent) := by
  rcases hsp : inp.sifPresent with _ | _
  · have hv : verify hash inp = ⟨⟨inp.sifPath, none, false⟩,
        ⟨.skip, "No .def provided"⟩, ⟨.skip, "No lock file found", none, [], []⟩,
        ⟨.skip, "No lock file found", none, [], []⟩, .fail⟩ := by
      simp [verify, hsp]
    rw [hv]
    exact ⟨by simp, fun _ => rfl, rfl⟩
  · rcases hcmd : inp.containerCmd with _ | cmd
    · have hv : verify hash inp = ⟨⟨inp.sifPath, some (hash inp.sifContent), true⟩,
          defOriginCheck hash inp,
          ⟨.skip, "No container command found", none, [], []⟩,
          ⟨.skip, "No container command found", none, [], []⟩,
          foldOverall .pass (defOriginCheck hash inp).status⟩ := by
        simp [verify, hsp, hcmd]
      rw [hv]
      refine ⟨?_, by intro h; simp at h, rfl⟩
      show foldOverall .pass (defOriginCheck hash inp).status = .pass ↔
        (true = true ∧ (defOriginCheck hash inp).status ≠ .fail ∧
          (CheckStatus.skip : CheckStatus) ≠ .fail ∧
          (CheckStatus.skip : CheckStatus) ≠ .fail)
      rw [foldOverall1_pass_iff]
      simp
    · have hv : verify hash inp = ⟨⟨inp.sifPath, some (hash inp.sifContent), true⟩,
          defOriginCheck hash inp, pipSection inp, dpkgSection inp,
          foldOverall (foldOverall (foldOverall .pass
            (defOriginCheck hash inp).status) (pipSection inp).status)
            (dpkgSection inp).status⟩ := by
        simp [verify, hsp, hcmd]
      rw [hv]
      refine ⟨?_, by intro h; simp at h, rfl⟩
      show foldOverall (foldOverall (foldOverall .pass
          (defOriginCheck hash inp).status) (pipSection inp).status)
          (dpkgSection inp).status = .pass ↔
        (true = true ∧ (defOriginCheck hash inp).status ≠ .fail ∧
          (pipSection inp).status ≠ .fail ∧ (dpkgSection inp).status ≠ .fail)
      rw [foldOverall3_pass_iff]
      simp

/-- Input used by the C9 witness: the artifact is missing, everything
else irrelevant. -/
def c9inp : VerifyInput :=
  ⟨"scitex.sif", false, "", false, "", false, "", none, none, none, none,
    .timedOut, .timedOut⟩

/-- Witness for C9: a missing artifact fails the whole report, the
existence field reports it truthfully, and the pass-iff equivalence
holds at this input. -/
theorem spec_c9_witness :
    (verify demoHash c9inp).overall = .fail ∧
    (verify demoHash c9inp).sif.present = false ∧
    ¬ ((verify demoHash c9inp).overall = .pass) := by
  have h := spec_c9 demoHash c9inp
  refine ⟨h.2.1 rfl, h.2.2, ?_⟩
  intro hpass
  have := (h.1.mp hpass).1
  rw [h.2.2] at this
  exact absurd this (by decide)

example : parse_version "scitex-v2.19.5.sif" = some "2.19.5" := by decide
example : parse_version "scitex-v.sif" = none := by decide
example : parse_version "current.sif" = none := by decide
example : parse_version "scitex-va.sif.sif" = some "a.sif" := by decide
example : parse_sandbox_version "sandbox-20260225_173700" = some "20260225_173700" := by decide
example : parse_sandbox_version "sandbox-2026_17" = none := by decide
example :
    versioned_sifs
      [⟨"scitex-v1.sif", .file "a", 1⟩, ⟨"x.txt", .file "b", 9⟩,
       ⟨"scitex-v2.sif", .file "c", 2⟩]
      = [⟨"scitex-v2.sif", .file "c", 2⟩, ⟨"scitex-v1.sif", .file "a", 1⟩] := by
  decide

end SciTexContainer
